import Mathlib

/-!
Verification of the evaluation engine of `streamlit_app.py` ("Tactic
Classifier Evaluator").  The program is a pandas/streamlit script; the
definitions below shallowly embed its evaluation pipeline:

* cell values coming out of `pd.read_csv` (and out of `parse_list_cell`)
  are modelled by `PyVal` — `none` stands for a missing cell (NaN/None),
  and `list` for a Python list produced by `ast.literal_eval`;
* operations that raise a Python exception (`TypeError`/`AttributeError`
  from `len(nan)`, `nan.split()`, `x in 3`, pandas `MergeError`) are
  modelled as `Option.none` / `Except.error`;
* floating-point ratios (`precision`, `recall`, `f1`, `pct`) are modelled
  over `ℚ`; all the concrete values appearing in the claims are exactly
  representable, so no rounding behaviour is lost.
-/

namespace TacticEval

/-- A Python value as it occurs in the evaluated table: a missing cell
(NaN/None), an integer, a string, or a list (the latter only arises as the
output of the literal parser / as a native list cell). -/
inductive PyVal where
  | none : PyVal
  | int (n : Int) : PyVal
  | str (s : String) : PyVal
  | list (xs : List PyVal) : PyVal

/-- Scalar equality of cell values, as pandas/Python `==` behaves on the
scalar cells that occur as merge/group keys (strings, numbers, NaN — with
NaN matching NaN, which is how pandas `merge`/`validate` treat NaN keys).
Values of different scalar types compare unequal, as in Python; list
values (unhashable in pandas, never key material) compare unequal. -/
def PyVal.eqv : PyVal → PyVal → Bool
  | PyVal.none, PyVal.none => true
  | PyVal.int a, PyVal.int b => a == b
  | PyVal.str a, PyVal.str b => a == b
  | _, _ => false

/-- Is the value a Python list? -/
def isListVal : PyVal → Bool
  | PyVal.list _ => true
  | _ => false

/-- `str.split()` with no arguments: split on runs of whitespace,
discarding empty tokens.  Helper carrying the current (reversed) token. -/
def splitWsAux : List Char → List Char → List String
  | cur, [] => if cur.isEmpty then [] else [String.mk cur.reverse]
  | cur, c :: cs =>
    if c.isWhitespace then
      if cur.isEmpty then splitWsAux [] cs
      else String.mk cur.reverse :: splitWsAux [] cs
    else splitWsAux (c :: cur) cs

/-- Python `s.split()`: whitespace-run tokenisation of a string. -/
def pySplit (s : String) : List String := splitWsAux [] s.toList

/-- Drop leading whitespace. -/
def skipWs : List Char → List Char
  | [] => []
  | c :: cs => if c.isWhitespace then skipWs cs else c :: cs

/-- Take a maximal run of decimal digits. -/
def takeDigits : List Char → List Char × List Char
  | [] => ([], [])
  | c :: cs =>
    if c.isDigit then
      let p := takeDigits cs
      (c :: p.1, p.2)
    else ([], c :: cs)

/-- Numeric value of a digit run. -/
def digitsVal (ds : List Char) : Nat :=
  ds.foldl (fun a c => a * 10 + (c.toNat - 48)) 0

/-- Parse a (possibly negative) integer literal. -/
def parseIntLit : List Char → Option (Int × List Char)
  | [] => Option.none
  | c :: rest =>
    if c == '-' then
      let p := takeDigits rest
      if p.1.isEmpty then Option.none
      else some (-(digitsVal p.1 : Int), p.2)
    else
      let p := takeDigits (c :: rest)
      if p.1.isEmpty then Option.none
      else some ((digitsVal p.1 : Int), p.2)

/-- The single-quote character. -/
def quoteChar : Char := Char.ofNat 39

/-- Scan up to the closing quote `q`; escape sequences are not part of the
modelled fragment and make the parse fail. -/
def takeUntilQuote (q : Char) : List Char → Option (List Char × List Char)
  | [] => Option.none
  | c :: cs =>
    if c == q then some ([], cs)
    else if c == '\\' then Option.none
    else
      match takeUntilQuote q cs with
      | some p => some (c :: p.1, p.2)
      | Option.none => Option.none

/-- Parse a quoted string literal (single or double quotes). -/
def parseStrLit : List Char → Option (String × List Char)
  | [] => Option.none
  | c :: rest =>
    if c == '"' || c == quoteChar then
      match takeUntilQuote c rest with
      | some p => some (String.mk p.1, p.2)
      | Option.none => Option.none
    else Option.none

mutual

/-- One literal value: an integer, a quoted string, or a bracketed list. -/
def parseVal : Nat → List Char → Option (PyVal × List Char)
  | 0, _ => Option.none
  | Nat.succ fuel, cs =>
    match skipWs cs with
    | [] => Option.none
    | c :: rest =>
      if c == '[' then
        match parseItems fuel rest with
        | some p => some (PyVal.list p.1, p.2)
        | Option.none => Option.none
      else if c == '"' || c == quoteChar then
        match parseStrLit (c :: rest) with
        | some p => some (PyVal.str p.1, p.2)
        | Option.none => Option.none
      else if c == '-' || c.isDigit then
        match parseIntLit (c :: rest) with
        | some p => some (PyVal.int p.1, p.2)
        | Option.none => Option.none
      else Option.none

/-- Items of a list literal, positioned right after `[` or after `,`
(Python allows a trailing comma). -/
def parseItems : Nat → List Char → Option (List PyVal × List Char)
  | 0, _ => Option.none
  | Nat.succ fuel, cs =>
    match skipWs cs with
    | ']' :: r => some ([], r)
    | cs' =>
      match parseVal fuel cs' with
      | some vp =>
        match skipWs vp.2 with
        | ',' :: r2 =>
          match parseItems fuel r2 with
          | some p => some (vp.1 :: p.1, p.2)
          | Option.none => Option.none
        | ']' :: r2 => some ([vp.1], r2)
        | _ => Option.none
      | Option.none => Option.none

end

/-- Model of Python's `ast.literal_eval` on a string, restricted to the
literal forms this dataset exercises: integers, quoted strings (without
escape sequences) and arbitrarily nested lists of those, with surrounding
whitespace.  Every other input — including the literal forms the model
leaves out — is a parse failure (`Option.none`), which in the program
surfaces as a raised exception caught by `parse_list_cell`. -/
def litEval (s : String) : Option PyVal :=
  match parseVal (s.length + 2) s.toList with
  | some vp => if (skipWs vp.2).isEmpty then some vp.1 else Option.none
  | Option.none => Option.none

/-- `parse_list_cell` (lines 129–135): a native list is returned as-is;
any other cell is fed to `ast.literal_eval`, whose *value is returned
unchanged whatever its type*; any raised exception (parse failure, or a
non-string non-list argument such as NaN or a number) yields `[]`. -/
def parse_list_cell (cell : PyVal) : PyVal :=
  match cell with
  | PyVal.list xs => PyVal.list xs
  | PyVal.str s =>
    match litEval s with
    | some v => v
    | Option.none => PyVal.list []
  | _ => PyVal.list []

/-- `startsWithB pat cs`: does `cs` start with `pat`? -/
def startsWithB : List Char → List Char → Bool
  | [], _ => true
  | _ :: _, [] => false
  | a :: as, b :: bs => a == b && startsWithB as bs

/-- Does `pat` occur as a contiguous run in the list? -/
def occursB (pat : List Char) : List Char → Bool
  | [] => pat.isEmpty
  | c :: cs => startsWithB pat (c :: cs) || occursB pat cs

/-- Python `t in s` on strings: substring containment. -/
def substrB (t s : String) : Bool := occursB t.toList s.toList

/-- Python `t in v` for a string `t` (the `tactic in lst` test of the flag
columns, lines 176–181): membership for a list, substring test for a
string, and a raised `TypeError` (modelled `Option.none`) for any
non-iterable value such as NaN or an integer. -/
def pyIn (t : String) : PyVal → Option Bool
  | PyVal.list xs => some (xs.any (fun v => PyVal.eqv v (PyVal.str t)))
  | PyVal.str s => some (substrB t s)
  | _ => Option.none

/-- A row of the uploaded predictions table before the ground-truth merge:
the designated identifier, text and predicted-categories cells. -/
structure PredRow where
  id : PyVal
  text : PyVal
  pred : PyVal

/-- A row of the separate ground-truth table (its identifier column and
its label column, the two columns the merge selects). -/
structure GtRow where
  id : PyVal
  label : PyVal

/-- A row of the table the evaluation runs on: identifier, text,
predicted-categories and true-categories cells (the latter is `none` for
a prediction row the left join did not match). -/
structure Row where
  id : PyVal
  text : PyVal
  pred : PyVal
  gt : PyVal

/-- The exceptions/aborts the run can surface: the pandas `MergeError`
raised by `validate="m:1"` (a fixed-message error, carrying no key data),
the `st.error`+`st.stop` on an empty tactic selection, and a Python
`TypeError`/`AttributeError` from operating on a non-string/non-list
cell. -/
inductive RunErr where
  | mergeNotUniqueRight : RunErr
  | noTacticSelected : RunErr
  | typeError : RunErr
deriving DecidableEq

/-- Does the list of keys contain a duplicate (pandas right-key
uniqueness check of `validate="m:1"`)? -/
def hasDup : List PyVal → Bool
  | [] => false
  | k :: ks => ks.any (fun x => PyVal.eqv x k) || hasDup ks

/-- The identifier keys of the ground-truth table. -/
def gtIds (gts : List GtRow) : List PyVal := gts.map (fun g => g.id)

/-- Left-join lookup: the label of the first ground-truth row whose key
equals `k`, or NaN (`PyVal.none`) when there is none — an unmatched
prediction row keeps a missing true-label cell. -/
def lookupGt (gts : List GtRow) (k : PyVal) : PyVal :=
  match gts with
  | [] => PyVal.none
  | g :: gs => if PyVal.eqv g.id k then g.label else lookupGt gs k

/-- `df_pred.merge(df_gt[[id_col, gt_col]], on=id_col, how="left",
validate="m:1")` (lines 98–103): duplicate keys on the right raise
`MergeError` before any merged table exists; otherwise every prediction
row acquires the label of its unique match, or NaN if unmatched. -/
def mergeLeftM1 (prs : List PredRow) (gts : List GtRow) :
    Except RunErr (List Row) :=
  if hasDup (gtIds gts) then Except.error RunErr.mergeNotUniqueRight
  else Except.ok (prs.map (fun p => ⟨p.id, p.text, p.pred, lookupGt gts p.id⟩))

/-- Map a fallible per-element function over a list, failing as soon as
one element fails (a raised exception inside `Series.apply` aborts the
whole column computation). -/
def optMap (f : α → Option β) : List α → Option (List β)
  | [] => some []
  | a :: as =>
    match f a, optMap f as with
    | some b, some bs => some (b :: bs)
    | _, _ => Option.none

/-- Except-valued variant of `optMap`. -/
def exMap (f : α → Except ε β) : List α → Except ε (List β)
  | [] => Except.ok []
  | a :: as =>
    match f a, exMap f as with
    | Except.ok b, Except.ok bs => Except.ok (b :: bs)
    | Except.error e, _ => Except.error e
    | _, Except.error e => Except.error e

/-- `__pred_flag__` of one row: `tactic in parse_list_cell(pred_cell)`. -/
def predFlag (t : String) (r : Row) : Option Bool :=
  pyIn t (parse_list_cell r.pred)

/-- `__gt_flag__` of one row: `tactic in parse_list_cell(gt_cell)`. -/
def gtFlag (t : String) (r : Row) : Option Bool :=
  pyIn t (parse_list_cell r.gt)

/-- The two flag columns of lines 176–181, one (pred, true) pair per row;
`Option.none` when any row raises (a raised `TypeError` inside either
`Series.apply` aborts the run, so only the error itself, not its position,
is observable). -/
def flagsOf (t : String) : List Row → Option (List (Bool × Bool))
  | [] => some []
  | r :: rows =>
    match predFlag t r, gtFlag t r, flagsOf t rows with
    | some p, some g, some fl => some ((p, g) :: fl)
    | _, _, _ => Option.none

/-- The TP condition of line 183: predicted and true. -/
def tpPred (p g : Bool) : Bool := p && g

/-- The FP condition of line 184: predicted and not true. -/
def fpPred (p g : Bool) : Bool := p && !g

/-- The FN condition of line 185: not predicted but true. -/
def fnPred (p g : Bool) : Bool := !p && g

/-- `TP` (line 183): number of rows with both flags set. -/
def TPcount (fl : List (Bool × Bool)) : Nat :=
  fl.countP (fun pg => tpPred pg.1 pg.2)

/-- `FP` (line 184): number of rows predicted but not true. -/
def FPcount (fl : List (Bool × Bool)) : Nat :=
  fl.countP (fun pg => fpPred pg.1 pg.2)

/-- `FN` (line 185): number of rows true but not predicted. -/
def FNcount (fl : List (Bool × Bool)) : Nat :=
  fl.countP (fun pg => fnPred pg.1 pg.2)

/-- `precision = TP / (TP + FP) if (TP + FP) else 0.0` (line 187). -/
def precisionOf (tp fp : Nat) : ℚ :=
  if tp + fp = 0 then 0 else (tp : ℚ) / ((tp : ℚ) + (fp : ℚ))

/-- `recall = TP / (TP + FN) if (TP + FN) else 0.0` (line 188). -/
def recallOf (tp fn : Nat) : ℚ :=
  if tp + fn = 0 then 0 else (tp : ℚ) / ((tp : ℚ) + (fn : ℚ))

/-- `f1 = 2·p·r / (p + r) if (p + r) else 0.0` (line 189). -/
def f1Of (p r : ℚ) : ℚ :=
  if p + r = 0 then 0 else 2 * p * r / (p + r)

/-- One row of the classification-metrics output table (lines 191–197);
`recallR` carries the `recall` column (that column's own name is a
reserved word here). -/
structure MetricRow where
  tactic : String
  TP : Nat
  FP : Nat
  FN : Nat
  precision : ℚ
  recallR : ℚ
  f1 : ℚ
deriving DecidableEq

/-- The metric row for one tactic (lines 174–197): flag columns, confusion
counts, and the three derived ratios. -/
def metricsForTactic (rows : List Row) (t : String) : Except RunErr MetricRow :=
  match flagsOf t rows with
  | some fl =>
    Except.ok
      { tactic := t
        TP := TPcount fl
        FP := FPcount fl
        FN := FNcount fl
        precision := precisionOf (TPcount fl) (FPcount fl)
        recallR := recallOf (TPcount fl) (FNcount fl)
        f1 := f1Of (precisionOf (TPcount fl) (FPcount fl))
                   (recallOf (TPcount fl) (FNcount fl)) }
  | Option.none => Except.error RunErr.typeError

/-- `metrics_df`: one metric row per selected tactic (lines 173–199). -/
def buildMetrics (ts : List String) (rows : List Row) :
    Except RunErr (List MetricRow) :=
  exMap (metricsForTactic rows) ts

/-- The built-in tactic dictionary `DEFAULT_TACTICS` (lines 22–35). -/
def DEFAULT_TACTICS : List (String × List String) :=
  [("urgency_marketing", ["now", "today", "limited", "hurry", "exclusive"]),
   ("social_proof", ["bestseller", "popular", "trending", "recommended"]),
   ("discount_marketing", ["sale", "discount", "deal", "free", "offer"]),
   ("Classic_Timeless_Luxury_style",
    ["elegance", "heritage", "sophistication", "refined", "timeless", "grace",
     "legacy", "opulence", "bespoke", "tailored", "understated", "prestige",
     "quality", "craftsmanship", "heirloom", "classic", "tradition", "iconic",
     "enduring", "rich", "authentic", "luxury", "fine", "pure", "exclusive",
     "elite", "mastery", "immaculate", "flawless", "distinction", "noble",
     "chic", "serene", "clean", "minimal", "poised", "balanced", "eternal",
     "neutral", "subtle", "grand", "timelessness", "tasteful", "quiet",
     "sublime"])]

/-- `key_terms = set(DEFAULT_TACTICS[tactic])` (line 146); selection via
the multiselect guarantees the key is present. -/
def keyTermsOf (t : String) : List String :=
  match DEFAULT_TACTICS.find? (fun p => p.1 == t) with
  | some p => p.2
  | Option.none => []

/-- `__total_words__` of one row:
`df[text_col].str.split().apply(len)` (line 148) — the `.str` accessor
yields NaN on a non-string cell and `len(nan)` raises, so only string
cells produce a count. -/
def totalWords : PyVal → Option Nat
  | PyVal.str s => some (pySplit s).length
  | _ => Option.none

/-- `__tactic_words__` of one row:
`sum(1 for w in txt.split() if w in key_terms)` (lines 149–151) —
`txt.split()` raises on a non-string cell. -/
def tacticWords (keys : List String) : PyVal → Option Nat
  | PyVal.str s => some ((pySplit s).countP (fun w => keys.contains w))
  | _ => Option.none

/-- The per-row `(id, __total_words__, __tactic_words__)` triples for one
tactic; `Option.none` when any text cell raises. -/
def rowCounts (keys : List String) : List Row → Option (List (PyVal × Nat × Nat))
  | [] => some []
  | r :: rows =>
    match totalWords r.text, tacticWords keys r.text, rowCounts keys rows with
    | some tw, some kw, some c => some ((r.id, tw, kw) :: c)
    | _, _, _ => Option.none

/-- First-occurrence deduplication with an accumulator of already-seen
keys. -/
def dedupAux : List PyVal → List PyVal → List PyVal
  | _, [] => []
  | seen, k :: ks =>
    if seen.any (fun x => PyVal.eqv x k) then dedupAux seen ks
    else k :: dedupAux (k :: seen) ks

/-- The group keys of `df_pred.groupby(id_col)` (line 152): the distinct
non-missing identifier values (pandas drops NaN group keys; the order of
the output rows is immaterial to every claim, so the model uses first
appearance where pandas sorts). -/
def aggIds (rows : List Row) : List PyVal :=
  dedupAux [] ((rows.map (fun r => r.id)).filter
    (fun v => !(PyVal.eqv v PyVal.none)))

/-- Grouped sum of `__total_words__` over the rows with identifier `k`
(line 152). -/
def groupTot (c : List (PyVal × Nat × Nat)) (k : PyVal) : Nat :=
  ((c.filter (fun e => PyVal.eqv e.1 k)).map (fun e => e.2.1)).sum

/-- Grouped sum of `__tactic_words__` over the rows with identifier `k`
(line 152). -/
def groupHits (c : List (PyVal × Nat × Nat)) (k : PyVal) : Nat :=
  ((c.filter (fun e => PyVal.eqv e.1 k)).map (fun e => e.2.2)).sum

/-- `(agg.__tactic_words__ / agg.__total_words__).fillna(0) * 100`
(lines 153–155): the 0/0 of an all-empty group is NaN, filled with 0. -/
def pctOf (tot hits : Nat) : ℚ :=
  if tot = 0 then 0 else (hits : ℚ) / (tot : ℚ) * 100

/-- `id_metrics` (lines 143–158): one output row per group key, carrying
one percentage per selected tactic (`pd.concat` aligns the per-tactic
columns on the shared group index). -/
def buildIdTable (ts : List String) (rows : List Row) :
    Except RunErr (List (PyVal × List ℚ)) :=
  match optMap (fun t => rowCounts (keyTermsOf t) rows) ts with
  | some cs =>
    Except.ok ((aggIds rows).map
      (fun k => (k, cs.map (fun c => pctOf (groupTot c k) (groupHits c k)))))
  | Option.none => Except.error RunErr.typeError

/-- The run configuration: the selected tactics, whether an identifier
column was designated, and whether a true-label column is available. -/
structure Config where
  tactics : List String
  hasId : Bool
  hasGt : Bool

/-- The two output tables of one evaluation run; a table is `none` when
its computation was skipped (no identifier column / no ground truth). -/
structure Output where
  idTable : Option (List (PyVal × List ℚ))
  metrics : Option (List MetricRow)

/-- The `Run Evaluation` block (lines 123–215): abort on an empty tactic
selection, then the word-level table (when an identifier column is set),
then the classification table (when true labels are available).  A raised
exception anywhere aborts the run. -/
def evalRun (cfg : Config) (rows : List Row) : Except RunErr Output :=
  if cfg.tactics.isEmpty then Except.error RunErr.noTacticSelected
  else
    match (if cfg.hasId then Except.map some (buildIdTable cfg.tactics rows)
           else Except.ok Option.none) with
    | Except.error e => Except.error e
    | Except.ok idT =>
      match (if cfg.hasGt then Except.map some (buildMetrics cfg.tactics rows)
             else Except.ok Option.none) with
      | Except.error e => Except.error e
      | Except.ok mT => Except.ok ⟨idT, mT⟩

/-- The whole run in the external-ground-truth configuration: the
validated left merge (lines 98–103) happens when the file is supplied,
before the evaluation block ever runs. -/
def pipelineExternalGt (prs : List PredRow) (gts : List GtRow)
    (cfg : Config) : Except RunErr Output :=
  match mergeLeftM1 prs gts with
  | Except.error e => Except.error e
  | Except.ok rows => evalRun cfg rows

/-- Following the spec's words (for the refinement claim about word-hit
aggregation): the spec-side tokenizer — a string splits on whitespace
runs, anything else yields the empty sequence. -/
def specTokens : PyVal → List String
  | PyVal.str s => pySplit s
  | _ => []

/-- Following the spec's words: per identifier, the sum of the per-record
token counts over the records of the group. -/
def specTotal (rows : List Row) (k : PyVal) : Nat :=
  ((rows.filter (fun r => PyVal.eqv r.id k)).map
    (fun r => (specTokens r.text).length)).sum

/-- Following the spec's words: per identifier, the sum of the per-record
counts of tokens present in the trigger-word set (each occurrence counted
individually). -/
def specHits (keys : List String) (rows : List Row) (k : PyVal) : Nat :=
  ((rows.filter (fun r => PyVal.eqv r.id k)).map
    (fun r => (specTokens r.text).countP (fun w => keys.contains w))).sum

/-- Following the spec's words: `pct = 100·hits/total`, and `0` when
`total = 0`. -/
def specPct (keys : List String) (rows : List Row) (k : PyVal) : ℚ :=
  if specTotal rows k = 0 then 0
  else 100 * (specHits keys rows k : ℚ) / (specTotal rows k : ℚ)

section Lemmas

/-- A key equal (as a cell value) to NaN is NaN. -/
lemma eqv_none_iff (k : PyVal) : PyVal.eqv PyVal.none k = true ↔ k = PyVal.none := by
  cases k <;> simp [PyVal.eqv]

lemma groupTot_cons (i : PyVal) (tw kw : Nat) (c : List (PyVal × Nat × Nat))
    (k : PyVal) :
    groupTot ((i, tw, kw) :: c) k =
      (if PyVal.eqv i k then tw else 0) + groupTot c k := by
  simp only [groupTot, List.filter]
  split <;> simp_all

lemma groupHits_cons (i : PyVal) (tw kw : Nat) (c : List (PyVal × Nat × Nat))
    (k : PyVal) :
    groupHits ((i, tw, kw) :: c) k =
      (if PyVal.eqv i k then kw else 0) + groupHits c k := by
  simp only [groupHits, List.filter]
  split <;> simp_all

lemma specTotal_cons (r : Row) (rows : List Row) (k : PyVal) :
    specTotal (r :: rows) k =
      (if PyVal.eqv r.id k then (specTokens r.text).length else 0) +
        specTotal rows k := by
  simp only [specTotal, List.filter]
  split <;> simp_all

lemma specHits_cons (keys : List String) (r : Row) (rows : List Row) (k : PyVal) :
    specHits keys (r :: rows) k =
      (if PyVal.eqv r.id k then
        (specTokens r.text).countP (fun w => keys.contains w) else 0) +
        specHits keys rows k := by
  simp only [specHits, List.filter]
  split <;> simp_all

/-- Inversion of one step of `rowCounts`. -/
lemma rowCounts_cons_inv (keys : List String) (r : Row) (rows : List Row)
    (c : List (PyVal × Nat × Nat))
    (h : rowCounts keys (r :: rows) = some c) :
    ∃ s c', r.text = PyVal.str s ∧ rowCounts keys rows = some c' ∧
      c = (r.id, (pySplit s).length,
           (pySplit s).countP (fun w => keys.contains w)) :: c' := by
  cases htx : r.text <;>
    simp only [rowCounts, htx, totalWords, tacticWords] at h <;>
    try exact Option.noConfusion h
  case str s =>
    cases hc' : rowCounts keys rows <;> rw [hc'] at h
    · exact Option.noConfusion h
    · exact ⟨s, _, rfl, rfl, by injection h; simp_all⟩

/-- Grouped code totals agree with the spec-side totals. -/
lemma groupTot_eq_specTotal (keys : List String) (rows : List Row)
    (c : List (PyVal × Nat × Nat)) (hc : rowCounts keys rows = some c)
    (k : PyVal) : groupTot c k = specTotal rows k := by
  induction rows generalizing c with
  | nil =>
    simp only [rowCounts] at hc
    injection hc with hc
    simp [← hc, groupTot, specTotal]
  | cons r rows ih =>
    obtain ⟨s, c', htx, hc', rfl⟩ := rowCounts_cons_inv keys r rows c hc
    rw [groupTot_cons, specTotal_cons, ih c' hc', htx]
    simp [specTokens]

/-- Grouped code hit counts agree with the spec-side hit counts. -/
lemma groupHits_eq_specHits (keys : List String) (rows : List Row)
    (c : List (PyVal × Nat × Nat)) (hc : rowCounts keys rows = some c)
    (k : PyVal) : groupHits c k = specHits keys rows k := by
  induction rows generalizing c with
  | nil =>
    simp only [rowCounts] at hc
    injection hc with hc
    simp [← hc, groupHits, specHits]
  | cons r rows ih =>
    obtain ⟨s, c', htx, hc', rfl⟩ := rowCounts_cons_inv keys r rows c hc
    rw [groupHits_cons, specHits_cons, ih c' hc', htx]
    simp [specTokens]

/-- Per entry of `rowCounts`, hits never exceed the total. -/
lemma rowCounts_hits_le (keys : List String) (rows : List Row)
    (c : List (PyVal × Nat × Nat)) (hc : rowCounts keys rows = some c) :
    ∀ e ∈ c, e.2.2 ≤ e.2.1 := by
  induction rows generalizing c with
  | nil =>
    simp only [rowCounts] at hc
    injection hc with hc
    simp [← hc]
  | cons r rows ih =>
    obtain ⟨s, c', _, hc', rfl⟩ := rowCounts_cons_inv keys r rows c hc
    intro e he
    rcases List.mem_cons.mp he with h | h
    · subst h
      exact List.countP_le_length _
    · exact ih c' hc' e h

/-- Summing within a group preserves the per-entry bound. -/
lemma groupHits_le_groupTot (c : List (PyVal × Nat × Nat)) (k : PyVal)
    (h : ∀ e ∈ c, e.2.2 ≤ e.2.1) : groupHits c k ≤ groupTot c k := by
  induction c with
  | nil => simp [groupHits, groupTot]
  | cons e c ih =>
    obtain ⟨i, tw, kw⟩ := e
    rw [groupTot_cons, groupHits_cons]
    have h1 : kw ≤ tw := h (i, tw, kw) (List.mem_cons_self _ _)
    have h2 := ih (fun e he => h e (List.mem_cons_of_mem _ he))
    split <;> omega

/-- The percentage is between 0 and 100 whenever hits are bounded by the
total. -/
lemma pctOf_mem (tot hits : Nat) (h : hits ≤ tot) :
    0 ≤ pctOf tot hits ∧ pctOf tot hits ≤ 100 := by
  unfold pctOf
  split
  · norm_num
  · rename_i h0
    have htot : (0 : ℚ) < tot := by
      exact_mod_cast Nat.pos_of_ne_zero h0
    have hq : (hits : ℚ) / tot ≤ 1 :=
      (div_le_one htot).mpr (by exact_mod_cast h)
    constructor
    · positivity
    · calc (hits : ℚ) / tot * 100 ≤ 1 * 100 :=
            mul_le_mul_of_nonneg_right hq (by norm_num)
        _ = 100 := by norm_num

/-- The code's percentage equals the spec's `100·hits/total` form. -/
lemma pctOf_eq_spec (tot hits : Nat) :
    pctOf tot hits =
      (if tot = 0 then 0 else 100 * (hits : ℚ) / (tot : ℚ)) := by
  unfold pctOf
  split
  · rfl
  · ring

lemma precisionOf_nonneg (tp fp : Nat) : 0 ≤ precisionOf tp fp := by
  unfold precisionOf
  split
  · norm_num
  · positivity

lemma precisionOf_le_one (tp fp : Nat) : precisionOf tp fp ≤ 1 := by
  unfold precisionOf
  split
  · norm_num
  · rename_i h0
    have hpos : (0 : ℚ) < (tp : ℚ) + (fp : ℚ) := by
      have h1 : 0 < tp + fp := Nat.pos_of_ne_zero h0
      exact_mod_cast h1
    have h2 : (0 : ℚ) ≤ (fp : ℚ) := Nat.cast_nonneg fp
    exact (div_le_one hpos).mpr (by linarith)

/-- The recall formula is the precision formula with FN in place of FP. -/
lemma recallOf_eq (tp fn : Nat) : recallOf tp fn = precisionOf tp fn := rfl

lemma f1Of_mem (p r : ℚ) (hp0 : 0 ≤ p) (hp1 : p ≤ 1) (hr0 : 0 ≤ r)
    (hr1 : r ≤ 1) : 0 ≤ f1Of p r ∧ f1Of p r ≤ 1 := by
  unfold f1Of
  split
  · norm_num
  · rename_i h0
    have hpr : 0 < p + r := lt_of_le_of_ne (by linarith) (Ne.symm h0)
    constructor
    · positivity
    · rw [div_le_one hpr]
      nlinarith [mul_nonneg (sub_nonneg.mpr hp1) hr0,
                 mul_nonneg (sub_nonneg.mpr hr1) hp0]

/-- The three confusion counts together count exactly the rows with at
least one flag set. -/
lemma counts_partition (fl : List (Bool × Bool)) :
    TPcount fl + FPcount fl + FNcount fl =
      fl.countP (fun pg => pg.1 || pg.2) := by
  induction fl with
  | nil => simp [TPcount, FPcount, FNcount]
  | cons pg fl ih =>
    obtain ⟨p, g⟩ := pg
    simp only [TPcount, FPcount, FNcount, List.countP_cons] at *
    cases p <;> cases g <;> simp [tpPred, fpPred, fnPred] at * <;> omega

/-- A defined flag column has one entry per row. -/
lemma flagsOf_length (t : String) (rows : List Row) (fl : List (Bool × Bool))
    (h : flagsOf t rows = some fl) : fl.length = rows.length := by
  induction rows generalizing fl with
  | nil =>
    simp only [flagsOf] at h
    injection h with h
    simp [← h]
  | cons r rows ih =>
    cases hp : predFlag t r <;> cases hg : gtFlag t r <;>
      cases hfl : flagsOf t rows <;>
        simp only [flagsOf, hp, hg, hfl] at h <;>
      try exact Option.noConfusion h
    injection h with h
    simp [← h, List.length_cons, ih _ hfl]

/-- A non-NaN key never matches NaN. -/
lemma eqv_none_eq_false (k : PyVal) (hk : k ≠ PyVal.none) :
    PyVal.eqv PyVal.none k = false := by
  cases k with
  | none => exact absurd rfl hk
  | int n => rfl
  | str s => rfl
  | list xs => rfl

end Lemmas

/-- C1, counterexample: a prediction row whose identifier "A" has no row
in the ground-truth table is left-joined to a NaN true-label cell, which
`parse_list_cell` turns into the empty list, so its true flag is `false`
— and since its predicted list contains the tactic, the record is counted
as a false positive (FP = 1), not excluded from the classification
metrics as the claim states. -/
theorem unmatched_row_contributes_fp_cex :
    mergeLeftM1
        [⟨PyVal.str "A", PyVal.str "hurry", PyVal.str "['urgency_marketing']"⟩] [] =
      Except.ok [⟨PyVal.str "A", PyVal.str "hurry",
        PyVal.str "['urgency_marketing']", PyVal.none⟩]
    ∧ flagsOf "urgency_marketing"
        [⟨PyVal.str "A", PyVal.str "hurry",
          PyVal.str "['urgency_marketing']", PyVal.none⟩] = some [(true, false)]
    ∧ FPcount [(true, false)] = 1 :=
  ⟨rfl, rfl, rfl⟩

/-- C1, amended: a prediction record with no matching ground-truth row
keeps a NaN true-label cell after the left join, whose parsed list is
empty; such a record therefore contributes to neither TP nor FN, but it
does count as an FP whenever its predicted list contains the tactic — and
it is still included in the word-hit aggregation (its token counts enter
the per-row count table). -/
theorem unmatched_rows_counted_as_fp (gts : List GtRow) (k tx pd : PyVal)
    (hnm : lookupGt gts k = PyVal.none) (t : String) (p : Bool) :
    gtFlag t ⟨k, tx, pd, lookupGt gts k⟩ = some false
    ∧ tpPred p false = false
    ∧ fnPred p false = false
    ∧ fpPred p false = p
    ∧ (∀ keys rows c s, tx = PyVal.str s → rowCounts keys rows = some c →
        rowCounts keys (⟨k, tx, pd, lookupGt gts k⟩ :: rows) =
          some ((k, (pySplit s).length,
            (pySplit s).countP (fun w => keys.contains w)) :: c)) := by
  refine ⟨?_, by cases p <;> rfl, by cases p <;> rfl, by cases p <;> rfl, ?_⟩
  · simp only [gtFlag, hnm]
    rfl
  · intro keys rows c s hs hc
    subst hs
    simp [rowCounts, totalWords, tacticWords, hc]

/-- Witness for the amended C1 at a concrete unmatched row. -/
theorem unmatched_rows_counted_as_fp_w :
    gtFlag "urgency_marketing"
        ⟨PyVal.str "A", PyVal.str "hurry", PyVal.none,
          lookupGt [] (PyVal.str "A")⟩ = some false
    ∧ rowCounts []
        [⟨PyVal.str "A", PyVal.str "hurry", PyVal.none,
          lookupGt [] (PyVal.str "A")⟩] = some [(PyVal.str "A", 1, 0)] := by
  have h := unmatched_rows_counted_as_fp [] (PyVal.str "A") (PyVal.str "hurry")
    PyVal.none rfl "urgency_marketing" true
  exact ⟨h.1, (h.2.2.2.2 [] [] [] "hurry" rfl rfl).trans (by rfl)⟩

/-- C2, counterexample: on a missing (NaN) text cell the token-count
computations raise (the `.str` accessor yields NaN and `len(nan)` /
`nan.split()` fail), modelled as `Option.none` — they do not yield an
empty token sequence, so `total_tokens` is not defined there. -/
theorem tokenize_null_raises_cex :
    totalWords PyVal.none = Option.none
    ∧ tacticWords (keyTermsOf "urgency_marketing") PyVal.none = Option.none
    ∧ totalWords PyVal.none ≠ some 0 :=
  ⟨rfl, rfl, by decide⟩

/-- C2, amended: a string text cell is tokenized by splitting on
whitespace runs and both per-record counts are defined on it; any
non-string cell (NaN, a number, a list) makes both counts raise instead
of yielding an empty token sequence. -/
theorem tokenize_string_or_raises (keys : List String) (v : PyVal) :
    (∃ s, v = PyVal.str s ∧ totalWords v = some (pySplit s).length
       ∧ tacticWords keys v = some ((pySplit s).countP (fun w => keys.contains w)))
    ∨ (totalWords v = Option.none ∧ tacticWords keys v = Option.none) := by
  cases v with
  | str s => exact Or.inl ⟨s, rfl, rfl, rfl⟩
  | none => exact Or.inr ⟨rfl, rfl⟩
  | int n => exact Or.inr ⟨rfl, rfl⟩
  | list xs => exact Or.inr ⟨rfl, rfl⟩

/-- C3, counterexample: the cell `"3"` is a non-list-looking string, so
per the claim it should parse to the empty list; `parse_list_cell` instead
returns the parsed literal itself, the integer 3 — not a list of strings
at all. -/
theorem parse_list_cell_nonlist_cex :
    parse_list_cell (PyVal.str "3") = PyVal.int 3
    ∧ isListVal (parse_list_cell (PyVal.str "3")) = false :=
  ⟨rfl, rfl⟩

/-- C3, amended: `parse_list_cell` never raises; a list cell is returned
unchanged; any string cell is handed to the literal parser and, when the
parse succeeds, the parsed value is returned as-is even when it is not a
list (e.g. `"3"` gives the integer 3); a failed parse, or any non-string
non-list cell (NaN, a number), yields the empty list. -/
theorem parse_list_cell_behavior :
    (∀ xs, parse_list_cell (PyVal.list xs) = PyVal.list xs)
    ∧ (∀ s v, litEval s = some v → parse_list_cell (PyVal.str s) = v)
    ∧ (∀ s, litEval s = Option.none → parse_list_cell (PyVal.str s) = PyVal.list [])
    ∧ parse_list_cell PyVal.none = PyVal.list []
    ∧ (∀ n, parse_list_cell (PyVal.int n) = PyVal.list [])
    ∧ parse_list_cell (PyVal.str "N/A") = PyVal.list []
    ∧ parse_list_cell (PyVal.str "['urgency_marketing']") =
        PyVal.list [PyVal.str "urgency_marketing"] := by
  refine ⟨fun xs => rfl, fun s v h => ?_, fun s h => ?_, rfl, fun n => rfl, rfl, rfl⟩
  · simp [parse_list_cell, h]
  · simp [parse_list_cell, h]

/-- Witness for the amended C3 at a concrete parsed literal. -/
theorem parse_list_cell_behavior_w :
    parse_list_cell (PyVal.str "[2]") = PyVal.list [PyVal.int 2] :=
  parse_list_cell_behavior.2.1 "[2]" (PyVal.list [PyVal.int 2]) rfl

/-- C4, counterexample: the `validate="m:1"` rejection is the pandas
`MergeError`, a fixed-message exception carrying no key data; a
ground-truth table with the key "X" duplicated and one with the key "Y"
duplicated are rejected with the *identical* error value, so the
rejection does not report which identifier values are duplicated. -/
theorem merge_error_reports_no_keys_cex :
    mergeLeftM1 []
        [⟨PyVal.str "X", PyVal.list []⟩, ⟨PyVal.str "X", PyVal.list []⟩] =
      Except.error RunErr.mergeNotUniqueRight
    ∧ mergeLeftM1 []
        [⟨PyVal.str "Y", PyVal.list []⟩, ⟨PyVal.str "Y", PyVal.list []⟩] =
      Except.error RunErr.mergeNotUniqueRight
    ∧ mergeLeftM1 []
        [⟨PyVal.str "X", PyVal.list []⟩, ⟨PyVal.str "X", PyVal.list []⟩] =
      mergeLeftM1 []
        [⟨PyVal.str "Y", PyVal.list []⟩, ⟨PyVal.str "Y", PyVal.list []⟩] :=
  ⟨rfl, rfl, rfl⟩

/-- C4, amended: a ground-truth table with duplicate identifier keys
makes the validated merge raise before any merged table exists, so the
whole run is rejected before any metric is computed — but the rejection
is the fixed merge-validation error, which does not name the duplicated
identifier values. -/
theorem duplicate_gt_keys_rejected (prs : List PredRow) (gts : List GtRow)
    (cfg : Config) (hdup : hasDup (gtIds gts) = true) :
    mergeLeftM1 prs gts = Except.error RunErr.mergeNotUniqueRight
    ∧ pipelineExternalGt prs gts cfg =
        Except.error RunErr.mergeNotUniqueRight := by
  have h1 : mergeLeftM1 prs gts = Except.error RunErr.mergeNotUniqueRight := by
    simp [mergeLeftM1, hdup]
  exact ⟨h1, by simp [pipelineExternalGt, h1]⟩

/-- Witness for the amended C4: a duplicated key "X" aborts the whole
pipeline with the merge error. -/
theorem duplicate_gt_keys_rejected_w :
    pipelineExternalGt []
        [⟨PyVal.str "X", PyVal.list []⟩, ⟨PyVal.str "X", PyVal.list []⟩]
        ⟨["urgency_marketing"], false, false⟩ =
      Except.error RunErr.mergeNotUniqueRight :=
  (duplicate_gt_keys_rejected []
    [⟨PyVal.str "X", PyVal.list []⟩, ⟨PyVal.str "X", PyVal.list []⟩]
    ⟨["urgency_marketing"], false, false⟩ rfl).2

/-- C5: whenever the per-row count columns are defined, the grouped code
totals, hits and percentage agree with the spec-side formulation (sums
over the identifier group, `pct = 100·hits/total`, 0 when the total is
0); and the two concrete scenarios: "hurry now for this exclusive deal"
under `urgency_marketing` gives total 6, hits 3, pct 50, and two records
under identifier "A" with counts (4,1) and (6,2) aggregate to pct 30. -/
theorem word_hit_aggregation_correct (keys : List String) (rows : List Row)
    (c : List (PyVal × Nat × Nat)) (hc : rowCounts keys rows = some c) :
    (∀ k, groupTot c k = specTotal rows k
        ∧ groupHits c k = specHits keys rows k
        ∧ pctOf (groupTot c k) (groupHits c k) = specPct keys rows k)
    ∧ totalWords (PyVal.str "hurry now for this exclusive deal") = some 6
    ∧ tacticWords (keyTermsOf "urgency_marketing")
        (PyVal.str "hurry now for this exclusive deal") = some 3
    ∧ pctOf 6 3 = 50
    ∧ buildIdTable ["urgency_marketing"]
        [⟨PyVal.str "A", PyVal.str "hurry aa bb cc", PyVal.none, PyVal.none⟩,
         ⟨PyVal.str "A", PyVal.str "now today aa bb cc dd", PyVal.none, PyVal.none⟩] =
        Except.ok [(PyVal.str "A", [pctOf 10 3])]
    ∧ pctOf 10 3 = 30 := by
  refine ⟨fun k => ?_, rfl, rfl, by norm_num [pctOf], rfl, by norm_num [pctOf]⟩
  have h1 := groupTot_eq_specTotal keys rows c hc k
  have h2 := groupHits_eq_specHits keys rows c hc k
  refine ⟨h1, h2, ?_⟩
  rw [h1, h2, pctOf_eq_spec]
  rfl

/-- Witness for C5 at the two-record scenario under identifier "A". -/
theorem word_hit_aggregation_correct_w :
    groupTot [(PyVal.str "A", 4, 1), (PyVal.str "A", 6, 2)] (PyVal.str "A") =
      specTotal
        [⟨PyVal.str "A", PyVal.str "hurry aa bb cc", PyVal.none, PyVal.none⟩,
         ⟨PyVal.str "A", PyVal.str "now today aa bb cc dd", PyVal.none, PyVal.none⟩]
        (PyVal.str "A")
    ∧ pctOf
        (groupTot [(PyVal.str "A", 4, 1), (PyVal.str "A", 6, 2)] (PyVal.str "A"))
        (groupHits [(PyVal.str "A", 4, 1), (PyVal.str "A", 6, 2)] (PyVal.str "A")) =
      specPct (keyTermsOf "urgency_marketing")
        [⟨PyVal.str "A", PyVal.str "hurry aa bb cc", PyVal.none, PyVal.none⟩,
         ⟨PyVal.str "A", PyVal.str "now today aa bb cc dd", PyVal.none, PyVal.none⟩]
        (PyVal.str "A") := by
  have h := word_hit_aggregation_correct (keyTermsOf "urgency_marketing")
    [⟨PyVal.str "A", PyVal.str "hurry aa bb cc", PyVal.none, PyVal.none⟩,
     ⟨PyVal.str "A", PyVal.str "now today aa bb cc dd", PyVal.none, PyVal.none⟩]
    [(PyVal.str "A", 4, 1), (PyVal.str "A", 6, 2)] rfl
  exact ⟨(h.1 (PyVal.str "A")).1, (h.1 (PyVal.str "A")).2.2⟩

/-- C6: every metric row the engine emits has its TP/FP/FN taken from the
flag columns, its ratios given by the `precision = TP/(TP+FP)`,
`recall = TP/(TP+FN)`, `f1 = 2·p·r/(p+r)` formulas with 0 for a zero
denominator, and precision, recall, f1 all in [0,1]; every defined
percentage lies in [0,100]. -/
theorem classification_metrics_correct (rows : List Row) (t : String)
    (m : MetricRow) (hm : metricsForTactic rows t = Except.ok m) :
    (∃ fl, flagsOf t rows = some fl ∧ m.TP = TPcount fl ∧ m.FP = FPcount fl
       ∧ m.FN = FNcount fl)
    ∧ m.precision = precisionOf m.TP m.FP
    ∧ m.recallR = recallOf m.TP m.FN
    ∧ m.f1 = f1Of m.precision m.recallR
    ∧ 0 ≤ m.precision ∧ m.precision ≤ 1
    ∧ 0 ≤ m.recallR ∧ m.recallR ≤ 1
    ∧ 0 ≤ m.f1 ∧ m.f1 ≤ 1
    ∧ (∀ keys rows2 c k, rowCounts keys rows2 = some c →
        0 ≤ pctOf (groupTot c k) (groupHits c k)
        ∧ pctOf (groupTot c k) (groupHits c k) ≤ 100) := by
  cases hfl : flagsOf t rows <;> simp only [metricsForTactic, hfl] at hm
  · exact Except.noConfusion hm
  · rename_i fl
    injection hm with hm
    subst hm
    have hp0 := precisionOf_nonneg (TPcount fl) (FPcount fl)
    have hp1 := precisionOf_le_one (TPcount fl) (FPcount fl)
    have hr0 : 0 ≤ recallOf (TPcount fl) (FNcount fl) := by
      rw [recallOf_eq]; exact precisionOf_nonneg _ _
    have hr1 : recallOf (TPcount fl) (FNcount fl) ≤ 1 := by
      rw [recallOf_eq]; exact precisionOf_le_one _ _
    have hf := f1Of_mem _ _ hp0 hp1 hr0 hr1
    refine ⟨⟨fl, rfl, rfl, rfl, rfl⟩, rfl, rfl, rfl, hp0, hp1, hr0, hr1,
      hf.1, hf.2, ?_⟩
    intro keys rows2 c k hc
    exact pctOf_mem _ _
      (groupHits_le_groupTot c k (rowCounts_hits_le keys rows2 c hc))

/-- Witness for C6 at a one-record run with a perfect prediction. -/
theorem classification_metrics_correct_w :
    (0 : ℚ) ≤ precisionOf 1 0 ∧ precisionOf 1 0 ≤ 1
    ∧ 0 ≤ f1Of (precisionOf 1 0) (recallOf 1 0)
    ∧ f1Of (precisionOf 1 0) (recallOf 1 0) ≤ 1 := by
  have h := classification_metrics_correct
    [⟨PyVal.none, PyVal.none, PyVal.list [PyVal.str "urgency_marketing"],
      PyVal.list [PyVal.str "urgency_marketing"]⟩] "urgency_marketing"
    ⟨"urgency_marketing", 1, 0, 0, precisionOf 1 0, recallOf 1 0,
      f1Of (precisionOf 1 0) (recallOf 1 0)⟩ rfl
  obtain ⟨-, -, -, -, hp0, hp1, -, -, hf0, hf1, -⟩ := h
  exact ⟨hp0, hp1, hf0, hf1⟩

/-- C7: for every record set and tactic whose flag columns are defined,
TP + FP + FN is at most the number of records. -/
theorem confusion_le_record_count (t : String) (rows : List Row)
    (fl : List (Bool × Bool)) (h : flagsOf t rows = some fl) :
    TPcount fl + FPcount fl + FNcount fl ≤ rows.length := by
  rw [counts_partition, ← flagsOf_length t rows fl h]
  exact List.countP_le_length _

/-- Witness for C7 at a one-record run. -/
theorem confusion_le_record_count_w :
    TPcount [(true, true)] + FPcount [(true, true)] + FNcount [(true, true)] ≤ 1 :=
  confusion_le_record_count "urgency_marketing"
    [⟨PyVal.none, PyVal.none, PyVal.list [PyVal.str "urgency_marketing"],
      PyVal.list [PyVal.str "urgency_marketing"]⟩] [(true, true)] rfl

/-- C8: a record with a missing (NaN) identifier adds no group key (the
groupby drops NaN keys) and changes no non-NaN group's total or hit sums,
so it is excluded from the identifier-level aggregation table — yet its
flags still enter the flag columns and shift TP/FP/FN by exactly its own
confusion contribution. -/
theorem null_id_rows_agg_vs_metrics (rows : List Row) (r : Row)
    (hid : r.id = PyVal.none) (s : String) (htx : r.text = PyVal.str s)
    (t : String) (p g : Bool) (hp : predFlag t r = some p)
    (hg : gtFlag t r = some g) (fl : List (Bool × Bool))
    (hfl : flagsOf t rows = some fl) :
    aggIds (r :: rows) = aggIds rows
    ∧ (∀ keys c, rowCounts keys rows = some c →
        rowCounts keys (r :: rows) =
          some ((PyVal.none, (pySplit s).length,
            (pySplit s).countP (fun w => keys.contains w)) :: c)
        ∧ ∀ k, k ≠ PyVal.none →
            groupTot ((PyVal.none, (pySplit s).length,
              (pySplit s).countP (fun w => keys.contains w)) :: c) k =
              groupTot c k
            ∧ groupHits ((PyVal.none, (pySplit s).length,
              (pySplit s).countP (fun w => keys.contains w)) :: c) k =
              groupHits c k)
    ∧ flagsOf t (r :: rows) = some ((p, g) :: fl)
    ∧ TPcount ((p, g) :: fl) = TPcount fl + (if tpPred p g then 1 else 0)
    ∧ FPcount ((p, g) :: fl) = FPcount fl + (if fpPred p g then 1 else 0)
    ∧ FNcount ((p, g) :: fl) = FNcount fl + (if fnPred p g then 1 else 0) := by
  refine ⟨?_, ?_, ?_, ?_, ?_, ?_⟩
  · simp [aggIds, hid, PyVal.eqv]
  · intro keys c hc
    constructor
    · simp [rowCounts, htx, totalWords, tacticWords, hc, hid]
    · intro k hk
      rw [groupTot_cons, groupHits_cons, eqv_none_eq_false k hk]
      simp
  · simp [flagsOf, hp, hg, hfl]
  · simp [TPcount, List.countP_cons]
  · simp [FPcount, List.countP_cons]
  · simp [FNcount, List.countP_cons]

/-- Witness for C8 at a concrete NaN-identifier record. -/
theorem null_id_rows_agg_vs_metrics_w :
    aggIds
        [⟨PyVal.none, PyVal.str "hurry", PyVal.list [], PyVal.list []⟩,
         ⟨PyVal.str "B", PyVal.str "now",
           PyVal.list [PyVal.str "urgency_marketing"], PyVal.list []⟩] =
      aggIds
        [⟨PyVal.str "B", PyVal.str "now",
           PyVal.list [PyVal.str "urgency_marketing"], PyVal.list []⟩]
    ∧ flagsOf "urgency_marketing"
        [⟨PyVal.none, PyVal.str "hurry", PyVal.list [], PyVal.list []⟩,
         ⟨PyVal.str "B", PyVal.str "now",
           PyVal.list [PyVal.str "urgency_marketing"], PyVal.list []⟩] =
      some [(false, false), (true, false)] := by
  have h := null_id_rows_agg_vs_metrics
    [⟨PyVal.str "B", PyVal.str "now",
       PyVal.list [PyVal.str "urgency_marketing"], PyVal.list []⟩]
    ⟨PyVal.none, PyVal.str "hurry", PyVal.list [], PyVal.list []⟩
    rfl "hurry" rfl "urgency_marketing" false false rfl rfl
    [(true, false)] rfl
  exact ⟨h.1, h.2.2.1⟩

/-- C9: the evaluation is a pure function of the input tables and the
configuration — it reads no ambient state in the embedding — so two runs
on equal inputs and equal configuration produce equal outputs, both for
the external-ground-truth pipeline and for the evaluation block itself. -/
theorem evaluation_deterministic (prs prs2 : List PredRow)
    (gts gts2 : List GtRow) (cfg cfg2 : Config) (rows rows2 : List Row)
    (h1 : prs = prs2) (h2 : gts = gts2) (h3 : cfg = cfg2)
    (h4 : rows = rows2) :
    pipelineExternalGt prs gts cfg = pipelineExternalGt prs2 gts2 cfg2
    ∧ evalRun cfg rows = evalRun cfg2 rows2 := by
  subst h1; subst h2; subst h3; subst h4
  exact ⟨rfl, rfl⟩

/-- Witness for C9 at a concrete run. -/
theorem evaluation_deterministic_w :
    pipelineExternalGt
        [⟨PyVal.str "A", PyVal.str "hurry", PyVal.str "['urgency_marketing']"⟩]
        [⟨PyVal.str "A", PyVal.list [PyVal.str "urgency_marketing"]⟩]
        ⟨["urgency_marketing"], true, true⟩ =
      pipelineExternalGt
        [⟨PyVal.str "A", PyVal.str "hurry", PyVal.str "['urgency_marketing']"⟩]
        [⟨PyVal.str "A", PyVal.list [PyVal.str "urgency_marketing"]⟩]
        ⟨["urgency_marketing"], true, true⟩ :=
  (evaluation_deterministic _ _ _ _ _ _ [] [] rfl rfl rfl rfl).1

/-- C10: the three confusion conditions are pairwise exclusive on any
flag pair, so a record is counted in at most one of TP, FP, FN, and their
sum counts exactly the records with the predicted or the true flag
set. -/
theorem confusion_conditions_partition (fl : List (Bool × Bool)) (p g : Bool) :
    (tpPred p g && fpPred p g) = false
    ∧ (tpPred p g && fnPred p g) = false
    ∧ (fpPred p g && fnPred p g) = false
    ∧ TPcount fl + FPcount fl + FNcount fl =
        fl.countP (fun pg => pg.1 || pg.2) := by
  refine ⟨?_, ?_, ?_, counts_partition fl⟩ <;> cases p <;> cases g <;> rfl

end TacticEval
